import Mathlib

/-!
Verification of the astropop image-combiner specification against a shallow
embedding of `astropop.image.imcombine`.  The implementation module is not
shipped under `src/`; only its reference test-suite
(`src/tests/test_imcombine.py`) is.  Every definition below whose doc comment
starts with `Modelled from the spec:` embeds a missing routine, faithful to
the specification's words and, where the specification under-determines the
arithmetic, to the exact values pinned by the reference tests.

Numeric values are modelled as rationals (`ℚ`); machine floats of the source
are exact on every quantity the claims mention.  Where the source stores a
square root (propagated uncertainty), the model stores the square (`uncSq`),
an exact rational.
-/

namespace Astropop

/-- Ceiling division on naturals: `cdiv a b = ⌈a / b⌉` for `b > 0`. -/
def cdiv (a b : Nat) : Nat := (a + b - 1) / b

/-- Insert a rational into a sorted list keeping it sorted (ties keep left). -/
def insertSorted (x : ℚ) : List ℚ → List ℚ
  | [] => [x]
  | y :: ys => if x ≤ y then x :: y :: ys else y :: insertSorted x ys

/-- Insertion sort on rationals, used to model the source's order statistics. -/
def sortQ : List ℚ → List ℚ
  | [] => []
  | x :: xs => insertSorted x (sortQ xs)

/-- Arithmetic mean of a list of rationals (0 on the empty list). -/
def meanQ (l : List ℚ) : ℚ := l.sum / l.length

/-- Modelled from the spec: median of a sample — middle order statistic, the
average of the two central order statistics for even length (§4.5). -/
def medianQ (l : List ℚ) : ℚ :=
  let s := sortQ l
  let n := l.length
  if n = 0 then 0
  else if n % 2 = 1 then s.getD (n / 2) 0
  else (s.getD (n / 2 - 1) 0 + s.getD (n / 2) 0) / 2

/-- Population variance (`ddof = 0`) of a list of rationals. -/
def popVar (l : List ℚ) : ℚ :=
  (l.map (fun x => (x - meanQ l) ^ 2)).sum / l.length

end Astropop

namespace Astropop

/-- A floating-point value as the clip primitives see it: a finite rational
or one of the non-finite IEEE values. -/
inductive FVal where
  | fin (q : ℚ)
  | nan
  | pinf
  | ninf
deriving DecidableEq

/-- Finiteness test, mirroring `np.isfinite`. -/
def FVal.isfinite : FVal → Bool
  | .fin _ => true
  | _ => false

/-- IEEE comparison `x < q` for a finite bound `q` (NaN compares false). -/
def FVal.ltQ : FVal → ℚ → Bool
  | .fin x, q => decide (x < q)
  | .nan, _ => false
  | .pinf, _ => false
  | .ninf, _ => true

/-- IEEE comparison `x > q` for a finite bound `q` (NaN compares false). -/
def FVal.gtQ : FVal → ℚ → Bool
  | .fin x, q => decide (q < x)
  | .nan, _ => false
  | .pinf, _ => true
  | .ninf, _ => false

/-- The finite value of an `FVal` (0 for non-finite entries).  The pipeline
reads this only where the ingest mask is false, so the placeholder for a
non-finite — hence ingest-masked — entry is inert. -/
def FVal.toQ : FVal → ℚ
  | .fin q => q
  | _ => 0

/-- Modelled from the spec: the elementwise decision of `_minmax_clip`
(§4.1) — start from non-finiteness, then mark values below the lower bound
and above the upper bound, each bound optional. -/
def minmaxPoint (x : FVal) (lo hi : Option ℚ) : Bool :=
  (!x.isfinite)
    || (match lo with | some l => x.ltQ l | none => false)
    || (match hi with | some h => x.gtQ h | none => false)

/-- Modelled from the spec: `_minmax_clip(arr, lo, hi)` (§4.1) over a
flattened array of any rank — a boolean mask of the same shape, computed
pointwise by `minmaxPoint`. -/
def _minmax_clip (arr : List FVal) (lo hi : Option ℚ) : List Bool :=
  arr.map (fun x => minmaxPoint x lo hi)

end Astropop

namespace Astropop

/-- A metadata value: integer, string or boolean (§3, `meta`). -/
inductive MVal where
  | i (z : ℤ)
  | s (st : String)
  | b (bv : Bool)
deriving DecidableEq

/-- Modelled from the spec: the `FrameData` input/output atom (§3) — 2-D
data, optional uncertainty, boolean mask, unit string and ordered metadata.
Arrays are total functions on indices; `rows`/`cols` give the shape.  Data
pixels are `FVal` so that NaN/Inf pixels are valid combine inputs (§7:
non-finite pixel values are not errors — they become masked inputs). -/
structure FrameData where
  rows : Nat
  cols : Nat
  data : Nat → Nat → FVal
  unct : Option (Nat → Nat → ℚ)
  mask : Nat → Nat → Bool
  unit : String
  meta : List (String × MVal)

/-- First metadata value bound to a key, mirroring an ordered mapping. -/
def metaLookup (m : List (String × MVal)) (k : String) : Option MVal :=
  (m.find? (fun p => p.1 = k)).map Prod.snd

/-- Replace the binding of `k` by `v` (removing earlier bindings), mirroring
a dictionary update. -/
def metaSet (m : List (String × MVal)) (k : String) (v : MVal) :
    List (String × MVal) :=
  (m.filter (fun p => p.1 ≠ k)) ++ [(k, v)]

/-- The sigma-clip threshold argument: a scalar or a tuple whose entries may
each be a number or `None`. -/
inductive TArg where
  | scalar (s : ℚ)
  | tup (l : List (Option ℚ))
deriving DecidableEq

/-- Modelled from the spec: the `ImCombiner` configuration snapshot (§3,
`CombinerConfig`) — memory budget in bytes, working element size in bytes
(from `dtype`), clip settings and header-merge policy. -/
structure ImCombinerCfg where
  max_memory : Nat
  dtypeSize : Nat
  sigma_clip : Option TArg
  sigma_cen_func : Option String
  sigma_dev_func : Option String
  minmax : Option (Option ℚ × Option ℚ)
  merge_header : String
  merge_header_keys : Option (List String)

/-- A default configuration: 1e9 byte budget, float64, no clipping,
`no_merge` header policy (§6). -/
def defaultCfg : ImCombinerCfg :=
  ⟨1000000000, 8, none, none, none, none, "no_merge", none⟩

/-- Modelled from the spec: `set_sigma_clip(threshold, cen_func, dev_func)`
(§6) — `None` threshold disables clipping and resets both function fields;
a tuple of more than two elements, an unknown function name, or an explicit
`None` function is rejected with `ConfigError`. -/
def set_sigma_clip (cfg : ImCombinerCfg) (t : Option TArg)
    (cen dev : Option String) : Except String ImCombinerCfg :=
  match t with
  | none =>
      .ok { cfg with sigma_clip := none, sigma_cen_func := none,
                     sigma_dev_func := none }
  | some tv =>
      if (match tv with | .tup l => decide (2 < l.length) | .scalar _ => false)
      then .error "Invalid threshold length"
      else
        match cen, dev with
        | some c, some d =>
            if c = "median" ∨ c = "mean" then
              if d = "std" ∨ d = "mad_std" then
                .ok { cfg with sigma_clip := some tv,
                               sigma_cen_func := some c,
                               sigma_dev_func := some d }
              else .error "Invalid deviation function"
            else .error "Invalid center function"
        | _, _ => .error "Sigma clip functions cannot be None"

/-- The source call `set_sigma_clip()` — every argument at its default
(`threshold=None`, `cen_func='median'`, `dev_func='mad_std'`). -/
def set_sigma_clip0 (cfg : ImCombinerCfg) : Except String ImCombinerCfg :=
  set_sigma_clip cfg none (some "median") (some "mad_std")

/-- The source call `set_sigma_clip(threshold)` — a threshold with the
function arguments left at their defaults. -/
def set_sigma_clip1 (cfg : ImCombinerCfg) (t : TArg) :
    Except String ImCombinerCfg :=
  set_sigma_clip cfg (some t) (some "median") (some "mad_std")

end Astropop

namespace Astropop

/-- Twice the total working size in bytes of the stack (§4.3): the data plus
one mask byte per element, multiplied by the method's cost factor
(`median → 4.5`, `mean`/`sum` → 3).  Doubled so that the half-integral
median factor stays a natural number. -/
def totSize2 (method : String) (n h w bsz : Nat) : Nat :=
  if method = "median" then 9 * (n * h * w * (bsz + 1))
  else 6 * (n * h * w * (bsz + 1))

/-- The stepping a chunk plan yields: the raw chunk-count estimate, the row
step, the column step, and the resulting number of chunks. -/
structure ChunkPlan where
  nChunks0 : Nat
  xstep : Nat
  ystep : Nat
  nChunks : Nat
deriving DecidableEq

/-- Modelled from the spec: the chunk planner of `ImCombiner._chunk_yielder`
(§4.3; the implementation is not under `src/`).  The planner estimates the
chunk count as `⌈total working size / max_memory⌉`, takes the row step as
`max(1, ⌊H / estimate⌋)` and, when the estimate exceeds the number of rows,
also splits along the columns with step `max(1, ⌈H·W / estimate⌉)`.  The
stepping is fixed by the reference tests (`src/tests/test_imcombine.py`,
`Test_ImCombiner_ChunkYielder`), which pin the exact chunk counts and slab
shapes for both the row-only and the column-splitting regimes. -/
def chunkPlan (method : String) (n h w bsz m : Nat) : ChunkPlan :=
  let n0 := cdiv (totSize2 method n h w bsz) (2 * m)
  let xs := max 1 (h / n0)
  let ys := if h < n0 then max 1 (cdiv (h * w) n0) else w
  ⟨n0, xs, ys, cdiv h xs * cdiv w ys⟩

/-- The row/column index ranges of the yielded chunks, in yield order:
`((r0, r1), (c0, c1))` covers rows `r0 ≤ i < r1` and columns `c0 ≤ j < c1`. -/
def chunkSlices (method : String) (n h w bsz m : Nat) :
    List ((Nat × Nat) × (Nat × Nat)) :=
  let p := chunkPlan method n h w bsz m
  (List.range (cdiv h p.xstep)).flatMap (fun ci =>
    (List.range (cdiv w p.ystep)).map (fun cj =>
      ((ci * p.xstep, min ((ci + 1) * p.xstep) h),
       (cj * p.ystep, min ((cj + 1) * p.ystep) w))))

/-- Shape `(rows, cols)` of one yielded slab. -/
def sliceShape (s : (Nat × Nat) × (Nat × Nat)) : Nat × Nat :=
  (s.1.2 - s.1.1, s.2.2 - s.2.1)

/-- Modelled from the spec: the debug record `"Splitting the images into
{n} chunks."` is emitted by the yielder exactly when the plan has more than
one chunk (§4.3, §6). -/
def chunkLogs (method : String) (n h w bsz m : Nat) : List String :=
  let p := chunkPlan method n h w bsz m
  if 1 < p.nChunks then
    ["Splitting the images into " ++ toString p.nChunks ++ " chunks."]
  else []

/-- The chunk-count formula the specification claims (§8.7):
`⌈H / max(1, ⌊max_memory / (f·N·W·(B+1))⌋)⌉`, written with the median
factor 4.5 as `⌊2·M / (9·N·W·(B+1))⌋`. -/
def claimedChunkCount (method : String) (n h w bsz m : Nat) : Nat :=
  let step :=
    if method = "median" then 2 * m / (9 * (n * w * (bsz + 1)))
    else m / (3 * (n * w * (bsz + 1)))
  cdiv h (max 1 step)

/-- One yielded slab: its shape and the values, a function of the in-slab
row and column offsets. -/
structure Slab (α : Type) where
  rows : Nat
  cols : Nat
  val : Nat → Nat → α

/-- Restriction of a full-frame array to one chunk's index ranges. -/
def slabOf {α : Type} (f : Nat → Nat → α) (s : (Nat × Nat) × (Nat × Nat)) :
    Slab α :=
  ⟨s.1.2 - s.1.1, s.2.2 - s.2.1, fun i j => f (s.1.1 + i) (s.2.1 + j)⟩

/-- True when every frame of the stack carries an uncertainty plane. -/
def uncertaintyEnabled (imgs : List FrameData) : Bool :=
  imgs.all (fun f => f.unct.isSome)

/-- Modelled from the spec: the full `_chunk_yielder` output (§4.3) — for
each planned chunk, the per-frame data slabs, the per-frame uncertainty
slabs (or `none` when any frame lacks uncertainty, §4.3 degradation), and
the chunk's index ranges.  The memory estimate counts data and mask only;
the uncertainty planes do not enter `totSize2`. -/
def chunkYield (imgs : List FrameData) (method : String) (bsz m : Nat) :
    List (List (Slab FVal) × Option (List (Slab ℚ)) ×
      ((Nat × Nat) × (Nat × Nat))) :=
  match imgs with
  | [] => []
  | f0 :: _ =>
      let slices := chunkSlices method imgs.length f0.rows f0.cols bsz m
      slices.map (fun s =>
        (imgs.map (fun f => slabOf f.data s),
         if uncertaintyEnabled imgs then
           some (imgs.map (fun f => slabOf (f.unct.getD (fun _ _ => 0)) s))
         else none,
         s))

end Astropop

namespace Astropop

/-- Median absolute deviation of a sample. -/
def madQ (l : List ℚ) : ℚ := medianQ (l.map (fun x => |x - medianQ l|))

/-- Resolve a centre-estimator name (§4.1): `"mean"` or `"median"`. -/
def cenOf (name : String) (l : List ℚ) : ℚ :=
  if name = "mean" then meanQ l else medianQ l

/-- Resolve a deviation-estimator name (§4.1) to the SQUARE of the
deviation, exact in ℚ: `"std"` squares to the population variance;
`"mad_std"` scales the MAD by the spec's constant 1.4826 (glossary). -/
def devSqOf (name : String) (l : List ℚ) : ℚ :=
  if name = "std" then popVar l else (14826 / 10000 * madQ l) ^ 2

/-- Lower and upper sigma thresholds of a threshold argument: a scalar `s`
acts as `(s, s)` (§4.1). -/
def threshLoHi : TArg → Option ℚ × Option ℚ
  | .scalar s => (some s, some s)
  | .tup [a] => (a, a)
  | .tup [a, b] => (a, b)
  | .tup _ => (none, none)

/-- Values of a pixel column surviving the mask. -/
def unmaskedVals (col : List (ℚ × Bool)) : List ℚ :=
  (col.filter (fun v => !v.2)).map Prod.fst

/-- Modelled from the spec: the minmax step of the rejection stage (§4.4)
on one pixel column — OR each element's mask with the `_minmax_clip`
decision. -/
def applyMinmaxCol (mm : Option (Option ℚ × Option ℚ))
    (col : List (ℚ × Bool)) : List (ℚ × Bool) :=
  match mm with
  | none => col
  | some (lo, hi) =>
      col.map (fun v => (v.1, v.2 || minmaxPoint (.fin v.1) lo hi))

/-- Modelled from the spec: the sigma-clip step of the rejection stage
(§4.4) on one pixel column — centre `c` and deviation `d` are computed from
the unmasked values; an element `x` is additionally rejected when
`x < c - low·d` or `x > c + high·d`.  Since `d ≥ 0` is only available as
its square, the comparison is phrased as `c - x > 0 ∧ (c-x)² > low²·d²`,
which is equivalent for nonnegative thresholds. -/
def applySigmaCol (cfg : ImCombinerCfg) (col : List (ℚ × Bool)) :
    List (ℚ × Bool) :=
  match cfg.sigma_clip, cfg.sigma_cen_func, cfg.sigma_dev_func with
  | some t, some cn, some dn =>
      let lh := threshLoHi t
      let us := unmaskedVals col
      let c := cenOf cn us
      let d2 := devSqOf dn us
      col.map (fun v =>
        (v.1,
         v.2
           || (match lh.1 with
               | some s => decide (v.1 < c ∧ s ^ 2 * d2 < (c - v.1) ^ 2)
               | none => false)
           || (match lh.2 with
               | some s => decide (c < v.1 ∧ s ^ 2 * d2 < (v.1 - c) ^ 2)
               | none => false)))
  | _, _, _ => col

/-- Modelled from the spec: ingest of one pixel column (§4.4 step 1) — the
per-frame working `(value, mask)` pairs whose initial mask is the input
mask OR non-finite(data).  The working value of an ingest-masked non-finite
entry is read as 0; every later stage consumes only unmasked values. -/
def stackCol (imgs : List FrameData) (i j : Nat) : List (ℚ × Bool) :=
  imgs.map (fun f =>
    ((f.data i j).toQ, f.mask i j || !(f.data i j).isfinite))

/-- Modelled from the spec: the rejection stage (§4.4) on one pixel column —
ingest first (step 1, inside `stackCol`: mask = input mask OR non-finite
data), then minmax, then sigma; pre-existing mask bits are never
cleared. -/
def rejCol (imgs : List FrameData) (cfg : ImCombinerCfg) (i j : Nat) :
    List (ℚ × Bool) :=
  applySigmaCol cfg (applyMinmaxCol cfg.minmax (stackCol imgs i j))

/-- Modelled from the spec: the per-pixel statistic of the reduction stage
(§4.5) over the unmasked values — median, mean or sum. -/
def combineVal (method : String) (col : List (ℚ × Bool)) : ℚ :=
  let us := unmaskedVals col
  if method = "median" then medianQ us
  else if method = "mean" then meanQ us
  else us.sum

/-- Modelled from the spec: the output-mask rule of the reduction stage
(§4.5) — a pixel is masked exactly when it has no unmasked contributor. -/
def combineMasked (col : List (ℚ × Bool)) : Bool :=
  (unmaskedVals col).isEmpty

/-- The per-frame uncertainty values of one pixel (0 where absent). -/
def sigmaCol (imgs : List FrameData) (i j : Nat) : List ℚ :=
  imgs.map (fun f => (f.unct.getD (fun _ _ => 0)) i j)

/-- Modelled from the spec: the squared propagated uncertainty (§4.5).  For
`sum` it is `Σ σᵢ²` over unmasked contributors, for `mean` that divided by
`n²`, and for `median` the testable identity of §4.5/S6 — the population
variance of the unmasked values divided by their count, whose square root
is `std(values)/sqrt(n)`. -/
def uncSqVal (method : String) (col : List (ℚ × Bool)) (sig : List ℚ) : ℚ :=
  let entries := (col.zip sig).filter (fun v => !v.1.2)
  let us := entries.map (fun v => v.1.1)
  let ss := entries.map (fun v => v.2)
  if method = "median" then popVar us / us.length
  else if method = "mean" then (ss.map (fun s => s ^ 2)).sum / (ss.length ^ 2)
  else (ss.map (fun s => s ^ 2)).sum

end Astropop

namespace Astropop

/-- Value of a key taken from the first input frame that defines it. -/
def firstDefined (imgs : List FrameData) (k : String) : Option MVal :=
  imgs.findSome? (fun f => metaLookup f.meta k)

/-- Modelled from the spec: the header merger (§4.6) before provenance —
`no_merge` keeps nothing; `first` copies the first input's meta;
`only_equal` keeps a key of the first input exactly when every input binds
it to the same value; `selected_keys` takes each requested key from the
first input that defines it. -/
def mergeMeta (cfg : ImCombinerCfg) (imgs : List FrameData) :
    List (String × MVal) :=
  match imgs with
  | [] => []
  | f0 :: _ =>
      if cfg.merge_header = "first" then f0.meta
      else if cfg.merge_header = "only_equal" then
        f0.meta.filter (fun p => imgs.all (fun g => metaLookup g.meta p.1 = some p.2))
      else if cfg.merge_header = "selected_keys" then
        (cfg.merge_header_keys.getD []).filterMap
          (fun k => (firstDefined imgs k).map (fun v => (k, v)))
      else []

/-- Modelled from the spec: the two provenance keys written last into the
output meta (§4.6): `astropop imcombine nimages` and
`astropop imcombine method`. -/
def addProvenance (m : List (String × MVal)) (n : Nat) (method : String) :
    List (String × MVal) :=
  metaSet (metaSet m "astropop imcombine nimages" (.i n))
    "astropop imcombine method" (.s method)

/-- The combiner's output frame.  It mirrors `FrameData`, except that the
propagated uncertainty is stored SQUARED (`uncSq`), since the source's σ is
its square root and is not rational in general. -/
structure CombineResult where
  rows : Nat
  cols : Nat
  data : Nat → Nat → ℚ
  uncSq : Option (Nat → Nat → ℚ)
  mask : Nat → Nat → Bool
  unit : String
  meta : List (String × MVal)

instance : Inhabited FrameData :=
  ⟨⟨0, 0, fun _ _ => .fin 0, none, fun _ _ => false, "", []⟩⟩

/-- The output frame a successful combine call builds (§4.5–§4.7): per
pixel, rejection then reduction; uncertainty propagated only when every
frame carries one; merged meta with provenance appended last. -/
def combineResultOf (imgs : List FrameData) (cfg : ImCombinerCfg)
    (method : String) : CombineResult :=
  { rows := imgs.headI.rows
    cols := imgs.headI.cols
    data := fun i j => combineVal method (rejCol imgs cfg i j)
    uncSq :=
      if uncertaintyEnabled imgs then
        some (fun i j =>
          uncSqVal method (rejCol imgs cfg i j) (sigmaCol imgs i j))
      else none
    mask := fun i j => combineMasked (rejCol imgs cfg i j)
    unit := imgs.headI.unit
    meta := addProvenance (mergeMeta cfg imgs) imgs.length method }

/-- Modelled from the spec: the driver `ImCombiner.combine(frames, method)`
(§4.7) — validate the method, fail on an empty stack or inconsistent
shapes/units, then per pixel run rejection (§4.4) and reduction (§4.5), and
merge headers with provenance (§4.6).  Uncertainty is propagated only when
every frame carries one. -/
def combine (imgs : List FrameData) (cfg : ImCombinerCfg) (method : String) :
    Except String CombineResult :=
  if !(method = "median" || method = "mean" || method = "sum") then
    .error (method ++ " is not a valid combining method.")
  else
    match imgs with
    | [] => .error "Image list is empty."
    | f0 :: rest =>
        if !(rest.all (fun f => f.rows = f0.rows && f.cols = f0.cols)) then
          .error "Frame shape incompatible with the first image."
        else if !(rest.all (fun f => f.unit = f0.unit)) then
          .error "Frame unit incompatible with the first image."
        else
          .ok (combineResultOf (f0 :: rest) cfg method)

/-- A fresh deep copy of a frame, as the loader materializes one (§4.2). -/
def copyFrame (f : FrameData) : FrameData :=
  ⟨f.rows, f.cols, f.data, f.unct, f.mask, f.unit, f.meta⟩

/-- Modelled from the spec: a full combine call as the caller observes it
(§4.7, §3 invariants) — the combiner works on internal copies of the inputs
and the caller's frames are returned untouched alongside the result. -/
def combineRun (imgs : List FrameData) (cfg : ImCombinerCfg)
    (method : String) : Except String CombineResult × List FrameData :=
  (combine (imgs.map copyFrame) cfg method, imgs)

/-- A heterogeneous input item of a combine call (§4.2): a native
`FrameData`, or a FITS-style record carrying only a data plane. -/
inductive ImInput where
  | frame (f : FrameData)
  | fitsLike (rows cols : Nat) (data : Nat → Nat → ℚ)

/-- The warning text the loader emits, exactly as the reference test
(`test_image_loading_fitsfile`) requires it. -/
def notFrameDataMsg : String :=
  "The images to combine are not FrameData. Some features may be disabled."

/-- True for an input that is not a native `FrameData`. -/
def ImInput.nonNative : ImInput → Bool
  | .frame _ => false
  | .fitsLike _ _ _ => true

/-- Modelled from the spec: wrapping of a non-native input (§4.2) — a
`FrameData` with default all-false mask, absent uncertainty and empty
meta. -/
def wrapInput : ImInput → FrameData
  | .frame f => f
  | .fitsLike r c d =>
      ⟨r, c, fun i j => .fin (d i j), none, fun _ _ => false, "", []⟩

/-- Modelled from the spec: `ImCombiner._load_images` (§4.2) — an empty
list fails with `EmptyStack`; otherwise every item is normalized to a
`FrameData`, and one `(level, text)` log record at WARNING level is emitted
when at least one input is not native, however many there are. -/
def _load_images (inputs : List ImInput) :
    Except String (List FrameData × List (String × String)) :=
  if inputs.isEmpty then .error "Image list is empty."
  else
    .ok (inputs.map wrapInput,
      if inputs.any ImInput.nonNative then [("WARNING", notFrameDataMsg)]
      else [])

end Astropop

namespace Astropop

/-- A 100x100 frame of the chunk-yielder scenarios: data plane, optional
uncertainty plane, all-false mask, unit `adu`, empty meta. -/
def stackFrame (d : Nat → Nat → ℚ) (un : Option (Nat → Nat → ℚ)) :
    FrameData :=
  ⟨100, 100, fun i j => .fin (d i j), un, fun _ _ => false, "adu", []⟩

/-- The 100-frame stack of `test_chunk_yielder_uncertainty`: every frame
carries the same data `d` and uncertainty `u`. -/
def c10Stack (d u : Nat → Nat → ℚ) : List FrameData :=
  stackFrame d (some u) :: List.replicate 99 (stackFrame d (some u))

/-- The same stack with every uncertainty absent. -/
def c10StackNoU (d : Nat → Nat → ℚ) : List FrameData :=
  stackFrame d none :: List.replicate 99 (stackFrame d none)

/-- One frame of scenario S6 (`test_combine_median_simple`): data `k·base`,
uncertainty `0.1·(k·base)`, all-false mask. -/
def mkScaled (k : ℚ) (base : Nat → Nat → ℚ) : FrameData :=
  ⟨1024, 1024, fun i j => .fin (k * base i j),
    some (fun i j => 1 / 10 * (k * base i j)), fun _ _ => false, "adu", []⟩

/-- The five-frame S6 stack, scale factors {0.8, 1.0, 1.2, 1.0, 1.2}. -/
def c2Stack (base : Nat → Nat → ℚ) : List FrameData :=
  [mkScaled (4/5) base, mkScaled 1 base, mkScaled (6/5) base,
    mkScaled 1 base, mkScaled (6/5) base]

end Astropop

namespace Astropop

lemma minmaxPoint_eq_true_iff (x : FVal) (lo hi : Option ℚ) :
    minmaxPoint x lo hi = true ↔
      x.isfinite = false
      ∨ (∃ q, x = .fin q ∧
          ((∃ l, lo = some l ∧ q < l) ∨ (∃ u, hi = some u ∧ u < q))) := by
  cases x <;> cases lo <;> cases hi <;>
    simp [minmaxPoint, FVal.isfinite, FVal.ltQ, FVal.gtQ]

/-- C4: `minmax_clip` semantics — the mask has the input's shape; an entry
is masked exactly when the value is non-finite, below the configured lower
bound, or above the configured upper bound; endpoint values are kept; with
both bounds absent exactly the non-finite entries are masked. -/
theorem C4_minmax_clip_spec (arr : List FVal) (lo hi : Option ℚ) :
    ((_minmax_clip arr lo hi).length = arr.length) ∧
    (∀ i, i < arr.length →
      ((_minmax_clip arr lo hi).getD i false = true ↔
        (arr.getD i .nan).isfinite = false
        ∨ (∃ q, arr.getD i .nan = .fin q ∧
            ((∃ l, lo = some l ∧ q < l) ∨ (∃ u, hi = some u ∧ u < q))))) ∧
    (∀ q l u, lo = some l → hi = some u → l ≤ q → q ≤ u →
      minmaxPoint (.fin q) lo hi = false) ∧
    (∀ i, i < arr.length →
      (_minmax_clip arr none none).getD i false =
        !(arr.getD i .nan).isfinite) := by
  refine ⟨by simp [_minmax_clip], ?_, ?_, ?_⟩
  · intro i hi2
    have hmap : (_minmax_clip arr lo hi).getD i false =
        minmaxPoint (arr.getD i .nan) lo hi := by
      simp [_minmax_clip, List.getD_eq_getElem?_getD, List.getElem?_map,
        List.getElem?_eq_getElem hi2]
    rw [hmap]
    exact minmaxPoint_eq_true_iff _ lo hi
  · intro q l u hl hu hlq hqu
    subst hl; subst hu
    simp [minmaxPoint, FVal.isfinite, FVal.ltQ, FVal.gtQ, not_lt.mpr hlq,
      not_lt.mpr hqu]
  · intro i hi2
    have hmap : (_minmax_clip arr none none).getD i false =
        minmaxPoint (arr.getD i .nan) none none := by
      simp [_minmax_clip, List.getD_eq_getElem?_getD, List.getElem?_map,
        List.getElem?_eq_getElem hi2]
    rw [hmap]
    cases arr.getD i .nan <;> rfl

/-- Witness for C4 at the reference test's invalid-values vector
(`test_invalid`, `arr = [0,1,2,inf,nan,5,1]`, bounds `(1,3)`). -/
theorem C4_witness :
    (_minmax_clip [.fin 0, .fin 1, .fin 2, .pinf, .nan, .fin 5, .fin 1]
        (some 1) (some 3)).getD 4 false = true ∧
    (_minmax_clip [.fin 0, .fin 1, .fin 2, .pinf, .nan, .fin 5, .fin 1]
        (some 1) (some 3)).getD 0 false = true ∧
    (_minmax_clip [.fin 0, .fin 1, .fin 2, .pinf, .nan, .fin 5, .fin 1]
        (some 1) (some 3)).getD 1 false = false := by
  have h := C4_minmax_clip_spec
    [.fin 0, .fin 1, .fin 2, .pinf, .nan, .fin 5, .fin 1] (some 1) (some 3)
  refine ⟨(h.2.1 4 (by decide)).mpr (Or.inl (by decide)),
    (h.2.1 0 (by decide)).mpr (Or.inr ⟨0, by decide, Or.inl ⟨1, rfl, by norm_num⟩⟩), ?_⟩
  have h1 := h.2.1 1 (by decide)
  cases hv : (_minmax_clip [.fin 0, .fin 1, .fin 2, .pinf, .nan, .fin 5, .fin 1]
      (some 1) (some 3)).getD 1 false
  · rfl
  · exfalso
    rcases (h1.mp hv) with hfin | ⟨q, hq, hout⟩
    · exact absurd hfin (by decide)
    · have hq1 : q = 1 := by
        have : FVal.fin 1 = FVal.fin q := by exact hq
        cases this; rfl
      subst hq1
      rcases hout with ⟨l, hl, hql⟩ | ⟨u, hu, huq⟩
      · cases hl; norm_num at hql
      · cases hu; norm_num at huq

end Astropop

namespace Astropop

/-- C8: `set_sigma_clip` state contract — the no-argument call disables the
threshold and resets both function fields to unset; a call with only a
threshold (scalar or 2-tuple) stores it and defaults the centre function to
`median` and the deviation function to `mad_std`. -/
theorem C8_set_sigma_clip_state (cfg : ImCombinerCfg) :
    (∃ c, set_sigma_clip0 cfg = .ok c ∧ c.sigma_clip = none ∧
      c.sigma_cen_func = none ∧ c.sigma_dev_func = none) ∧
    (∀ s : ℚ, ∃ c, set_sigma_clip1 cfg (.scalar s) = .ok c ∧
      c.sigma_clip = some (.scalar s) ∧ c.sigma_cen_func = some "median" ∧
      c.sigma_dev_func = some "mad_std") ∧
    (∀ a b : Option ℚ, ∃ c, set_sigma_clip1 cfg (.tup [a, b]) = .ok c ∧
      c.sigma_clip = some (.tup [a, b]) ∧ c.sigma_cen_func = some "median" ∧
      c.sigma_dev_func = some "mad_std") := by
  refine ⟨⟨_, rfl, rfl, rfl, rfl⟩, ?_, ?_⟩
  · intro s
    exact ⟨_, rfl, rfl, rfl, rfl⟩
  · intro a b
    exact ⟨_, rfl, rfl, rfl, rfl⟩

/-- Witness for C8 at the default configuration and threshold 1, mirroring
`test_class_set_sigmaclip`. -/
theorem C8_witness :
    (∃ c, set_sigma_clip0 defaultCfg = .ok c ∧ c.sigma_clip = none ∧
      c.sigma_cen_func = none ∧ c.sigma_dev_func = none) ∧
    (∃ c, set_sigma_clip1 defaultCfg (.scalar 1) = .ok c ∧
      c.sigma_clip = some (.scalar 1) ∧ c.sigma_cen_func = some "median" ∧
      c.sigma_dev_func = some "mad_std") :=
  ⟨(C8_set_sigma_clip_state defaultCfg).1,
   (C8_set_sigma_clip_state defaultCfg).2.1 1⟩

/-- C7: input immutability — a combine call returns the caller's frames
untouched; every frame's data, uncertainty, mask, unit and meta compare
identical before and after, for every method and clip configuration. -/
theorem C7_inputs_unchanged (imgs : List FrameData) (cfg : ImCombinerCfg)
    (method : String) :
    (combineRun imgs cfg method).2 = imgs ∧
    ∀ n (h : n < imgs.length),
      ((combineRun imgs cfg method).2.get ⟨n, h⟩).data =
          (imgs.get ⟨n, h⟩).data ∧
      ((combineRun imgs cfg method).2.get ⟨n, h⟩).unct =
          (imgs.get ⟨n, h⟩).unct ∧
      ((combineRun imgs cfg method).2.get ⟨n, h⟩).mask =
          (imgs.get ⟨n, h⟩).mask ∧
      ((combineRun imgs cfg method).2.get ⟨n, h⟩).unit =
          (imgs.get ⟨n, h⟩).unit ∧
      ((combineRun imgs cfg method).2.get ⟨n, h⟩).meta =
          (imgs.get ⟨n, h⟩).meta :=
  ⟨rfl, fun _ _ => ⟨rfl, rfl, rfl, rfl, rfl⟩⟩

/-- Witness for C7 on a concrete one-frame combine call. -/
theorem C7_witness :
    ((combineRun [⟨1, 1, fun _ _ => .fin 2, none, fun _ _ => false, "adu",
        []⟩] defaultCfg "mean").2.get ⟨0, by decide⟩).unit = "adu" := by
  have h := (C7_inputs_unchanged
    [⟨1, 1, fun _ _ => .fin 2, none, fun _ _ => false, "adu", []⟩]
    defaultCfg "mean").2 0 (by decide)
  exact h.2.2.2.1.trans rfl

/-- C5 counterexample: loading a single non-native input emits exactly one
WARNING whose text names `FrameData`; the exact text the claim demands
(naming `Frame`) is never emitted. -/
theorem C5_counterexample :
    _load_images [.fitsLike 1 1 (fun _ _ => 0)] =
      .ok ([⟨1, 1, fun _ _ => .fin 0, none, fun _ _ => false, "", []⟩],
        [("WARNING", notFrameDataMsg)]) ∧
    notFrameDataMsg ≠
      "The images to combine are not Frame. Some features may be disabled." :=
  ⟨rfl, by decide⟩

/-- C5 (amended): whenever at least one input is non-native, each such
input is wrapped into a `FrameData` with all-false mask, absent uncertainty
and empty meta, and the warning `"The images to combine are not FrameData.
Some features may be disabled."` is emitted exactly once per call at
WARNING level, however many inputs are non-native. -/
theorem C5_load_warning (inputs : List ImInput) (h : inputs ≠ []) :
    ∃ frames logs, _load_images inputs = .ok (frames, logs) ∧
      frames = inputs.map wrapInput ∧
      (logs.count ("WARNING", notFrameDataMsg) =
        if inputs.any ImInput.nonNative then 1 else 0) ∧
      (∀ rec ∈ logs, rec = ("WARNING", notFrameDataMsg)) ∧
      (∀ r c d, wrapInput (.fitsLike r c d) =
        ⟨r, c, fun i j => .fin (d i j), none, fun _ _ => false, "", []⟩) := by
  have hne : inputs.isEmpty = false := by
    cases inputs with
    | nil => exact absurd rfl h
    | cons a l => rfl
  cases ha : inputs.any ImInput.nonNative with
  | false =>
      refine ⟨inputs.map wrapInput, [], ?_, rfl, ?_, ?_, fun _ _ _ => rfl⟩
      · simp [_load_images, hne, ha]
      · simp [ha]
      · intro rec hrec
        simp at hrec
  | true =>
      refine ⟨inputs.map wrapInput, [("WARNING", notFrameDataMsg)], ?_, rfl,
        ?_, ?_, fun _ _ _ => rfl⟩
      · simp [_load_images, hne, ha]
      · simp [ha]
      · intro rec hrec
        simpa using hrec

/-- Witness for C5 on two FITS-style inputs and one native frame: one
warning record in total. -/
theorem C5_witness :
    ∃ frames logs,
      _load_images [.fitsLike 1 1 (fun _ _ => 0), .fitsLike 1 1 (fun _ _ => 1),
        .frame ⟨1, 1, fun _ _ => .fin 2, none, fun _ _ => false, "adu",
          []⟩] = .ok (frames, logs) ∧
      logs.count ("WARNING", notFrameDataMsg) = 1 := by
  obtain ⟨frames, logs, hok, _, hcount, _, _⟩ :=
    C5_load_warning
      [.fitsLike 1 1 (fun _ _ => 0), .fitsLike 1 1 (fun _ _ => 1),
        .frame ⟨1, 1, fun _ _ => .fin 2, none, fun _ _ => false, "adu", []⟩]
      (by simp)
  exact ⟨frames, logs, hok, by simpa using hcount⟩

end Astropop

namespace Astropop

lemma length_flatMap_const {α β : Type} (l : List α) (f : α → List β)
    (b : Nat) (hf : ∀ a ∈ l, (f a).length = b) :
    (l.flatMap f).length = l.length * b := by
  induction l with
  | nil => simp
  | cons x xs ih =>
      have hx := hf x (List.mem_cons_self x xs)
      have hxs : ∀ a ∈ xs, (f a).length = b := fun a ha =>
        hf a (List.mem_cons_of_mem x ha)
      simp [List.flatMap_cons, hx, ih hxs, Nat.succ_mul, Nat.add_comm]

lemma chunkSlices_length (method : String) (n h w bsz m : Nat) :
    (chunkSlices method n h w bsz m).length =
      (chunkPlan method n h w bsz m).nChunks := by
  unfold chunkSlices chunkPlan
  rw [length_flatMap_const _ _
    (cdiv w (if h < cdiv (totSize2 method n h w bsz) (2 * m) then
      max 1 (cdiv (h * w) (cdiv (totSize2 method n h w bsz) (2 * m))) else w))]
  · simp
  · intro a _
    simp

/-- C1 (amended): the chunk yielder produces exactly
`⌈H / xstep⌉ · ⌈W / ystep⌉` chunks, where
`xstep = max(1, ⌊H / ⌈f·N·H·W·(B+1) / M⌉⌋)` and `ystep` is `W` unless the
estimate `⌈f·N·H·W·(B+1)/M⌉` exceeds `H`, in which case columns are split
with `ystep = max(1, ⌈H·W / estimate⌉)`; the log message `"Splitting the
images into {n} chunks."` is emitted exactly when `n > 1`; in particular
100 float64 frames of shape (100,100) with `max_memory = 1e6` give 50
chunks of shape (2,100) for `median`, and 34 chunks with slab shapes in
{(3,100),(1,100)} for `mean` and `sum`. -/
theorem C1_chunk_count (method : String) (n h w bsz m : Nat) :
    ((chunkSlices method n h w bsz m).length =
      cdiv h (chunkPlan method n h w bsz m).xstep *
        cdiv w (chunkPlan method n h w bsz m).ystep) ∧
    (1 < (chunkPlan method n h w bsz m).nChunks →
      chunkLogs method n h w bsz m =
        ["Splitting the images into " ++
          toString (chunkPlan method n h w bsz m).nChunks ++ " chunks."]) ∧
    ((chunkPlan method n h w bsz m).nChunks ≤ 1 →
      chunkLogs method n h w bsz m = []) ∧
    ((chunkSlices "median" 100 100 100 8 1000000).length = 50 ∧
      ∀ s ∈ chunkSlices "median" 100 100 100 8 1000000,
        sliceShape s = (2, 100)) ∧
    (chunkLogs "median" 100 100 100 8 1000000 =
      ["Splitting the images into 50 chunks."]) ∧
    ((chunkSlices "mean" 100 100 100 8 1000000).length = 34 ∧
      ∀ s ∈ chunkSlices "mean" 100 100 100 8 1000000,
        sliceShape s = (3, 100) ∨ sliceShape s = (1, 100)) ∧
    ((chunkSlices "sum" 100 100 100 8 1000000).length = 34 ∧
      ∀ s ∈ chunkSlices "sum" 100 100 100 8 1000000,
        sliceShape s = (3, 100) ∨ sliceShape s = (1, 100)) ∧
    (chunkLogs "mean" 100 100 100 8 1000000 =
      ["Splitting the images into 34 chunks."]) ∧
    (chunkLogs "sum" 100 100 100 8 1000000 =
      ["Splitting the images into 34 chunks."]) := by
  refine ⟨chunkSlices_length method n h w bsz m, ?_, ?_, ?_, ?_, ?_, ?_, ?_, ?_⟩
  · intro h1
    simp [chunkLogs, h1]
  · intro h1
    have : ¬ 1 < (chunkPlan method n h w bsz m).nChunks := by omega
    simp [chunkLogs, this]
  · exact ⟨by decide, by decide⟩
  · decide
  · exact ⟨by decide, by decide⟩
  · exact ⟨by decide, by decide⟩
  · decide
  · decide

set_option maxRecDepth 20000 in
/-- C1 counterexample: for 100 float64 frames of shape (100,100), method
`median` and `max_memory = 1e5`, the claimed formula
`⌈H / max(1, ⌊M / (f·N·W·(B+1))⌋)⌉` gives 100 chunks, but the yielder
produces 400 (the reference test `test_chunk_yielder_f64` pins 400). -/
theorem C1_counterexample :
    claimedChunkCount "median" 100 100 100 8 100000 = 100 ∧
    (chunkSlices "median" 100 100 100 8 100000).length = 400 ∧
    claimedChunkCount "median" 100 100 100 8 100000 ≠
      (chunkSlices "median" 100 100 100 8 100000).length := by
  exact ⟨by decide, by decide, by decide⟩

/-- Witness for C1 at the float64 median test point. -/
theorem C1_witness :
    (chunkSlices "median" 100 100 100 8 1000000).length =
      cdiv 100 (chunkPlan "median" 100 100 100 8 1000000).xstep *
        cdiv 100 (chunkPlan "median" 100 100 100 8 1000000).ystep ∧
    chunkLogs "median" 100 100 100 8 1000000 =
      ["Splitting the images into 50 chunks."] := by
  have h := C1_chunk_count "median" 100 100 100 8 1000000
  exact ⟨h.1, h.2.1 (by decide)⟩

end Astropop

namespace Astropop

set_option maxRecDepth 40000 in
/-- C9 counterexample: in the column-splitting regime the yielded chunks do
NOT all fit the budget in the claim's cost measure `f·N·rows·cols·(B+1)` —
the very first (1,25) chunk of the float64 `median` plan at
`max_memory = 1e5` costs 101 250 bytes (written here doubled to keep the
4.5 factor integral: `2·100000 < 9·100·1·25·9`). -/
theorem C9_counterexample :
    ((0, 1), (0, 25)) ∈ chunkSlices "median" 100 100 100 8 100000 ∧
    2 * 100000 < 9 * (100 * 1 * 25 * (8 + 1)) := by
  exact ⟨by decide, by decide⟩

set_option maxRecDepth 40000 in
/-- C9 (amended): when the budget is below the cost of one full stack row,
the yielder subdivides each single-row chunk along the column axis
(chunks may exceed the budget by the rounding of the column step): 100
float64 frames of shape (100,100), `median`, `max_memory = 1e5` yield 400
chunks of shape (1,25); with float32 the same budget yields 300 chunks
with shapes in {(1,45),(1,10)}; every such chunk spans a strict subset of
the columns. -/
theorem C9_column_split :
    (chunkSlices "median" 100 100 100 8 100000).length = 400 ∧
    (∀ s ∈ chunkSlices "median" 100 100 100 8 100000,
      sliceShape s = (1, 25)) ∧
    (chunkSlices "median" 100 100 100 4 100000).length = 300 ∧
    (∀ s ∈ chunkSlices "median" 100 100 100 4 100000,
      sliceShape s = (1, 45) ∨ sliceShape s = (1, 10)) ∧
    (∀ s ∈ chunkSlices "median" 100 100 100 8 100000,
      (sliceShape s).2 < 100) ∧
    (∀ s ∈ chunkSlices "median" 100 100 100 4 100000,
      (sliceShape s).2 < 100) := by
  refine ⟨by decide, by decide, by decide, by decide, by decide, by decide⟩

set_option maxRecDepth 40000 in
/-- Witness for C9 at the first yielded chunk of the float64 plan. -/
theorem C9_witness :
    sliceShape ((0, 1), (0, 25)) = (1, 25) :=
  C9_column_split.2.1 ((0, 1), (0, 25)) (by decide)

end Astropop

namespace Astropop

lemma c10_unct_enabled (d u : Nat → Nat → ℚ) :
    uncertaintyEnabled (c10Stack d u) = true := by
  simp only [uncertaintyEnabled, c10Stack, List.all_eq_true]
  intro f hf
  rcases List.mem_cons.mp hf with rfl | hf2
  · rfl
  · rw [List.eq_of_mem_replicate hf2]; rfl

lemma c10_yield_eq (d u : Nat → Nat → ℚ) :
    chunkYield (c10Stack d u) "sum" 8 2000000 =
      (chunkSlices "sum" 100 100 100 8 2000000).map (fun s =>
        ((c10Stack d u).map (fun f => slabOf f.data s),
         some ((c10Stack d u).map
           (fun f => slabOf (f.unct.getD (fun _ _ => 0)) s)),
         s)) := by
  have hen : uncertaintyEnabled
      ((⟨100, 100, fun i j => .fin (d i j), some u, fun _ _ => false, "adu",
          []⟩ : FrameData) ::
        List.replicate 99
          ⟨100, 100, fun i j => .fin (d i j), some u, fun _ _ => false,
            "adu", []⟩) = true :=
    c10_unct_enabled d u
  simp only [c10Stack, stackFrame, chunkYield, hen, List.length_cons,
    List.length_replicate, if_true]

lemma c10_yield_noU_eq (d : Nat → Nat → ℚ) :
    chunkYield (c10StackNoU d) "sum" 8 2000000 =
      (chunkSlices "sum" 100 100 100 8 2000000).map (fun s =>
        ((c10StackNoU d).map (fun f => slabOf f.data s), none, s)) := by
  have hno : uncertaintyEnabled
      ((⟨100, 100, fun i j => .fin (d i j), none, fun _ _ => false, "adu",
          []⟩ : FrameData) ::
        List.replicate 99
          ⟨100, 100, fun i j => .fin (d i j), none, fun _ _ => false, "adu",
            []⟩) = false := by
    simp [uncertaintyEnabled]
  simp only [c10StackNoU, stackFrame, chunkYield, hno, List.length_cons,
    List.length_replicate, Bool.false_eq_true, if_false]

set_option maxRecDepth 40000 in
/-- C10: the chunk planner budgets only data and mask — the presence of
uncertainty planes does not change the chunking.  For 100 float64 frames of
shape (100,100) all carrying uncertainty, method `sum`, `max_memory = 2e6`,
the yielder produces 15 chunks, the same index ranges as for the stack
without uncertainty, with slab shapes in {(7,100),(2,100)}, and each
uncertainty slab equals the corresponding rows and columns of the source
uncertainty array. -/
theorem C10_uncertainty_excluded (d u : Nat → Nat → ℚ) :
    ((chunkYield (c10Stack d u) "sum" 8 2000000).length = 15) ∧
    ((chunkYield (c10Stack d u) "sum" 8 2000000).map (fun t => t.2.2) =
      chunkSlices "sum" 100 100 100 8 2000000) ∧
    ((chunkYield (c10StackNoU d) "sum" 8 2000000).map (fun t => t.2.2) =
      chunkSlices "sum" 100 100 100 8 2000000) ∧
    (∀ s ∈ chunkSlices "sum" 100 100 100 8 2000000,
      sliceShape s = (7, 100) ∨ sliceShape s = (2, 100)) ∧
    (∀ t ∈ chunkYield (c10Stack d u) "sum" 8 2000000,
      ∃ us, t.2.1 = some us ∧ us.length = 100 ∧
        ∀ sl ∈ us, ∀ i j, sl.val i j = u (t.2.2.1.1 + i) (t.2.2.2.1 + j)) := by
  refine ⟨?_, ?_, ?_, by decide, ?_⟩
  · rw [c10_yield_eq, List.length_map]
    decide
  · rw [c10_yield_eq, List.map_map]
    exact List.map_id _
  · rw [c10_yield_noU_eq, List.map_map]
    exact List.map_id _
  · intro t ht
    rw [c10_yield_eq] at ht
    rcases List.mem_map.mp ht with ⟨s, _, rfl⟩
    refine ⟨(c10Stack d u).map
      (fun f => slabOf (f.unct.getD (fun _ _ => 0)) s), rfl, ?_, ?_⟩
    · simp [c10Stack]
    · intro sl hsl i j
      rcases List.mem_map.mp hsl with ⟨f, hf, rfl⟩
      have hfe : f = stackFrame d (some u) := by
        rcases List.mem_cons.mp hf with rfl | hf2
        · rfl
        · exact List.eq_of_mem_replicate hf2
      subst hfe
      rfl

set_option maxRecDepth 40000 in
/-- Witness for C10 at concrete data and uncertainty planes. -/
theorem C10_witness :
    (chunkYield (c10Stack (fun _ _ => 0) (fun i j => (i : ℚ) + j)) "sum" 8
      2000000).length = 15 ∧
    (sliceShape ((0, 7), (0, 100)) = (7, 100) ∨
      sliceShape ((0, 7), (0, 100)) = (2, 100)) :=
  ⟨(C10_uncertainty_excluded (fun _ _ => 0) (fun i j => (i : ℚ) + j)).1,
   (C10_uncertainty_excluded (fun _ _ => 0)
      (fun i j => (i : ℚ) + j)).2.2.2.1 ((0, 7), (0, 100)) (by decide)⟩

end Astropop

namespace Astropop

lemma combine_eq_ok (imgs : List FrameData) (cfg : ImCombinerCfg)
    (method : String) (res : CombineResult)
    (h : combine imgs cfg method = .ok res) :
    res = combineResultOf imgs cfg method ∧ imgs ≠ [] := by
  unfold combine at h
  split at h
  · exact absurd h (by simp)
  · split at h
    · exact absurd h (by simp)
    · split at h
      · exact absurd h (by simp)
      · split at h
        · exact absurd h (by simp)
        · exact ⟨(Except.ok.inj h).symm, by simp⟩

lemma combineMasked_eq_true_iff (col : List (ℚ × Bool)) :
    combineMasked col = true ↔ ∀ p ∈ col, p.2 = true := by
  simp only [combineMasked, unmaskedVals, List.isEmpty_iff,
    List.map_eq_nil_iff, List.filter_eq_nil_iff]
  constructor
  · intro h p hp
    have := h p hp
    simpa using this
  · intro h p hp
    simpa using h p hp

lemma rejCol_no_clip (imgs : List FrameData) (cfg : ImCombinerCfg)
    (i j : Nat) (hmm : cfg.minmax = none) (hsc : cfg.sigma_clip = none) :
    rejCol imgs cfg i j = stackCol imgs i j := by
  unfold rejCol applyMinmaxCol applySigmaCol
  rw [hmm, hsc]

/-- C3 counterexample: with no clipping configured, a pixel masked in
strictly fewer than all input frames (here: in one of two) is nonetheless
masked in the output, because the other contributor is an unmasked NaN and
ingest (§4.4 step 1) masks non-finite data first. -/
theorem C3_counterexample :
    ∃ res,
      combine
        [⟨1, 1, fun _ _ => .fin 1, none, fun _ _ => true, "adu", []⟩,
         ⟨1, 1, fun _ _ => .nan, none, fun _ _ => false, "adu", []⟩]
        defaultCfg "median" = .ok res ∧
      ¬ (∀ f ∈ ([⟨1, 1, fun _ _ => .fin 1, none, fun _ _ => true, "adu",
            []⟩,
          ⟨1, 1, fun _ _ => .nan, none, fun _ _ => false, "adu", []⟩] :
            List FrameData),
          f.mask 0 0 = true) ∧
      res.mask 0 0 = true := by
  refine ⟨_, rfl, ?_, rfl⟩
  intro hall
  have hb := hall
    ⟨1, 1, fun _ _ => .nan, none, fun _ _ => false, "adu", []⟩ (by simp)
  simp at hb

/-- C3 (amended): output mask law — a pixel of the output frame is masked
exactly when every contributor at that position is masked after ingest
(input mask OR non-finite data) and rejection; with no clipping configured,
exactly when every input frame either masks the pixel or holds a
non-finite value there — so a pixel with at least one unmasked finite
contributor is unmasked in the output. -/
theorem C3_output_mask (imgs : List FrameData) (cfg : ImCombinerCfg)
    (method : String) (res : CombineResult) (i j : Nat)
    (h : combine imgs cfg method = .ok res) :
    (res.mask i j = true ↔ ∀ p ∈ rejCol imgs cfg i j, p.2 = true) ∧
    (cfg.minmax = none → cfg.sigma_clip = none →
      (res.mask i j = true ↔
        ∀ f ∈ imgs, (f.mask i j || !(f.data i j).isfinite) = true)) := by
  obtain ⟨rfl, -⟩ := combine_eq_ok imgs cfg method res h
  constructor
  · exact combineMasked_eq_true_iff _
  · intro hmm hsc
    rw [show (combineResultOf imgs cfg method).mask i j =
        combineMasked (rejCol imgs cfg i j) from rfl,
      combineMasked_eq_true_iff, rejCol_no_clip imgs cfg i j hmm hsc]
    simp [stackCol]

/-- Witness for C3 on two finite-valued frames: the pixel (0,0) is masked
in both inputs and masked in the output; the pixel (0,1) is masked in only
one input, its other contributor unmasked and finite, and it is unmasked
in the output. -/
theorem C3_witness :
    ∃ res,
      combine
        [⟨1, 2, fun _ _ => .fin 1, none, fun _ _ => true, "adu", []⟩,
         ⟨1, 2, fun _ _ => .fin 2, none, fun _ j => decide (j = 0), "adu",
          []⟩]
        defaultCfg "median" = .ok res ∧
      res.mask 0 0 = true ∧ res.mask 0 1 = false := by
  refine ⟨_, rfl, ?_, ?_⟩
  · exact ((C3_output_mask
      [⟨1, 2, fun _ _ => .fin 1, none, fun _ _ => true, "adu", []⟩,
       ⟨1, 2, fun _ _ => .fin 2, none, fun _ j => decide (j = 0), "adu",
        []⟩]
      defaultCfg "median" _ 0 0 rfl).2 rfl rfl).mpr (by decide)
  · have hiff := (C3_output_mask
      [⟨1, 2, fun _ _ => .fin 1, none, fun _ _ => true, "adu", []⟩,
       ⟨1, 2, fun _ _ => .fin 2, none, fun _ j => decide (j = 0), "adu",
        []⟩]
      defaultCfg "median" _ 0 1 rfl).2 rfl rfl
    cases hv : (combineResultOf
        [⟨1, 2, fun _ _ => .fin 1, none, fun _ _ => true, "adu", []⟩,
         ⟨1, 2, fun _ _ => .fin 2, none, fun _ j => decide (j = 0), "adu",
          []⟩]
        defaultCfg "median").mask 0 1
    · rfl
    · exfalso
      rw [hv] at hiff
      have hall := hiff.mp rfl
      have hb := hall
        ⟨1, 2, fun _ _ => .fin 2, none, fun _ j => decide (j = 0), "adu",
         []⟩
        (by simp)
      simp [FVal.isfinite] at hb

end Astropop

namespace Astropop

lemma medianQ_scaled (b : ℚ) :
    medianQ [4/5 * b, 1 * b, 6/5 * b, 1 * b, 6/5 * b] = b := by
  rcases lt_trichotomy b 0 with hb | hb | hb
  · have h1 : ¬ ((4:ℚ)/5 * b ≤ 1 * b) := by nlinarith
    have h2 : ¬ ((4:ℚ)/5 * b ≤ 6/5 * b) := by nlinarith
    have h3 : ((1:ℚ) * b ≤ 4/5 * b) := by nlinarith
    have h4 : ¬ ((1:ℚ) * b ≤ 6/5 * b) := by nlinarith
    have h5 : ((6:ℚ)/5 * b ≤ 4/5 * b) := by nlinarith
    have h6 : ((6:ℚ)/5 * b ≤ 1 * b) := by nlinarith
    have h7 : ((4:ℚ)/5 * b ≤ 4/5 * b) := le_refl _
    have h8 : ((1:ℚ) * b ≤ 1 * b) := le_refl _
    have h9 : ((6:ℚ)/5 * b ≤ 6/5 * b) := le_refl _
    simp only [medianQ, sortQ, insertSorted, h1, h2, h3, h4, h5, h6, h7, h8,
      h9, if_true, if_false, ite_true, ite_false]
    norm_num
  · subst hb
    norm_num [medianQ, sortQ, insertSorted]
  · have h1 : ((4:ℚ)/5 * b ≤ 1 * b) := by nlinarith
    have h2 : ((4:ℚ)/5 * b ≤ 6/5 * b) := by nlinarith
    have h3 : ¬ ((1:ℚ) * b ≤ 4/5 * b) := by nlinarith
    have h4 : ((1:ℚ) * b ≤ 6/5 * b) := by nlinarith
    have h5 : ¬ ((6:ℚ)/5 * b ≤ 4/5 * b) := by nlinarith
    have h6 : ¬ ((6:ℚ)/5 * b ≤ 1 * b) := by nlinarith
    have h7 : ((4:ℚ)/5 * b ≤ 4/5 * b) := le_refl _
    have h8 : ((1:ℚ) * b ≤ 1 * b) := le_refl _
    have h9 : ((6:ℚ)/5 * b ≤ 6/5 * b) := le_refl _
    simp only [medianQ, sortQ, insertSorted, h1, h2, h3, h4, h5, h6, h7, h8,
      h9, if_true, if_false, ite_true, ite_false]
    norm_num

lemma popVar_scaled (b : ℚ) :
    popVar [4/5 * b, 1 * b, 6/5 * b, 1 * b, 6/5 * b] = 14/625 * b^2 := by
  simp only [popVar, meanQ, List.sum_cons, List.sum_nil, List.map_cons,
    List.map_nil, List.length_cons, List.length_nil]
  ring

/-- C2: median uncertainty identity (scenario S6) — combining the five
frames `k·base` for `k ∈ {0.8, 1.0, 1.2, 1.0, 1.2}` with σ = `0.1·k·base`
by `median` returns the base data (the median scale is 1.0); the squared
output uncertainty is `(std([0.8,1.0,1.2,1.0,1.2])/sqrt(5))² · base² =
14/3125 · base²`, whose square root matches the claimed decimal
0.06693280212272602 to within 1e-16 of its square; the output meta records
5 images and method `median`. -/
theorem C2_median_combine (base : Nat → Nat → ℚ) :
    ∃ res, combine (c2Stack base) defaultCfg "median" = .ok res ∧
      (∀ i j, res.data i j = base i j) ∧
      (∃ f, res.uncSq = some f ∧
        ∀ i j, f i j = 14/3125 * (base i j) ^ 2) ∧
      metaLookup res.meta "astropop imcombine nimages" = some (.i 5) ∧
      metaLookup res.meta "astropop imcombine method" = some (.s "median") ∧
      popVar [4/5, 1, 6/5, 1, 6/5] / 5 = 14/3125 ∧
      ((6693280212272602 : ℚ) / 10 ^ 17) ^ 2 < 14/3125 ∧
      14/3125 - ((6693280212272602 : ℚ) / 10 ^ 17) ^ 2 < 1 / 10 ^ 16 := by
  refine ⟨_, rfl, ?_, ?_, rfl, rfl, ?_, by norm_num, by norm_num⟩
  case refine_3 =>
    simp only [popVar, meanQ, List.sum_cons, List.sum_nil, List.map_cons,
      List.map_nil, List.length_cons, List.length_nil]
    norm_num
  · intro i j
    show medianQ [4/5 * base i j, 1 * base i j, 6/5 * base i j,
      1 * base i j, 6/5 * base i j] = base i j
    exact medianQ_scaled (base i j)
  · refine ⟨_, rfl, ?_⟩
    intro i j
    show popVar [4/5 * base i j, 1 * base i j, 6/5 * base i j,
      1 * base i j, 6/5 * base i j] / ((5 : Nat) : ℚ) =
      14/3125 * (base i j) ^ 2
    rw [popVar_scaled]
    push_cast
    ring

/-- Witness for C2 at the constant base plane 3. -/
theorem C2_witness :
    ∃ res, combine (c2Stack (fun _ _ => 3)) defaultCfg "median" = .ok res ∧
      res.data 0 0 = 3 ∧
      ∃ f, res.uncSq = some f ∧ f 0 0 = 126/3125 := by
  obtain ⟨res, hok, hdata, ⟨f, hf, hval⟩, -⟩ :=
    C2_median_combine (fun _ _ => 3)
  refine ⟨res, hok, ?_, f, hf, ?_⟩
  · rw [hdata 0 0]
  · rw [hval 0 0]
    norm_num

end Astropop

namespace Astropop

lemma find?_ext {α : Type} (p q : α → Bool) (l : List α)
    (h : ∀ a, p a = q a) : l.find? p = l.find? q := by
  induction l with
  | nil => rfl
  | cons x xs ih => rw [List.find?_cons, List.find?_cons, h x, ih]

lemma mfind_filter_ne (m : List (String × MVal)) (k : String) :
    (m.filter (fun p => p.1 ≠ k)).find? (fun p => p.1 = k) = none := by
  rw [List.find?_filter, List.find?_eq_none]
  intro p _
  simp

lemma mfind_filter_other (m : List (String × MVal)) (k k' : String)
    (h : k' ≠ k) :
    (m.filter (fun p => p.1 ≠ k)).find? (fun p => p.1 = k') =
      m.find? (fun p => p.1 = k') := by
  rw [List.find?_filter]
  apply find?_ext
  intro a
  by_cases ha : a.1 = k'
  · have hak : a.1 ≠ k := by rw [ha]; exact h
    simp [ha, hak, h]
  · simp [ha]

lemma metaLookup_metaSet_same (m : List (String × MVal)) (k : String)
    (v : MVal) : metaLookup (metaSet m k v) k = some v := by
  unfold metaLookup metaSet
  rw [List.find?_append, mfind_filter_ne]
  simp

lemma metaLookup_metaSet_other (m : List (String × MVal)) (k k' : String)
    (v : MVal) (h : k' ≠ k) :
    metaLookup (metaSet m k v) k' = metaLookup m k' := by
  unfold metaLookup metaSet
  rw [List.find?_append, mfind_filter_other m k k' h]
  have hkv : ((k, v).1 = k') = False := by
    simp only [eq_iff_iff, iff_false]
    exact fun he => h he.symm
  simp [List.find?_cons, hkv]

lemma lookup_filter_of (m : List (String × MVal))
    (P : String × MVal → Bool) (k : String) (v : MVal)
    (hl : metaLookup m k = some v) (hP : P (k, v) = true) :
    metaLookup (m.filter P) k = some v := by
  induction m with
  | nil => simp [metaLookup] at hl
  | cons p rest ih =>
      by_cases hp : p.1 = k
      · have hv : p.2 = v := by
          unfold metaLookup at hl
          rw [List.find?_cons_of_pos _ (by simp [hp])] at hl
          simpa using hl
        have hpv : p = (k, v) := Prod.ext hp hv
        subst hpv
        rw [List.filter_cons_of_pos hP]
        unfold metaLookup
        rw [List.find?_cons_of_pos _ (by simp)]
        rfl
      · have hl' : metaLookup rest k = some v := by
          unfold metaLookup at hl ⊢
          rwa [List.find?_cons_of_neg _ (by simp [hp])] at hl
        rw [List.filter_cons]
        by_cases hPp : P p = true
        · rw [hPp, if_pos rfl]
          unfold metaLookup
          rw [List.find?_cons_of_neg _ (by simp [hp])]
          exact ih hl'
        · rw [Bool.not_eq_true] at hPp
          rw [hPp]
          simpa using ih hl'

lemma lookup_filter_mem (m : List (String × MVal))
    (P : String × MVal → Bool) (k : String) (v : MVal)
    (h : metaLookup (m.filter P) k = some v) :
    ∃ p, p ∈ m ∧ p.1 = k ∧ p.2 = v ∧ P p = true := by
  rcases Option.map_eq_some'.mp h with ⟨pr, hfind, hsnd⟩
  have hkey : pr.1 = k := by
    have := List.find?_some hfind
    simpa using this
  have hmem := List.mem_of_find?_eq_some hfind
  rcases List.mem_filter.mp hmem with ⟨hm, hPp⟩
  exact ⟨pr, hm, hkey, hsnd, hPp⟩

end Astropop

namespace Astropop

/-- C6: `only_equal` header merge — after a combine with the `only_equal`
policy, a non-provenance key is bound to `v` in the output meta exactly
when every input frame binds it to `v`; the two provenance keys are bound
to the image count and the method. -/
theorem C6_only_equal_merge (imgs : List FrameData) (cfg : ImCombinerCfg)
    (method : String) (res : CombineResult)
    (hpol : cfg.merge_header = "only_equal")
    (h : combine imgs cfg method = .ok res) :
    (∀ k v, k ≠ "astropop imcombine nimages" →
      k ≠ "astropop imcombine method" →
      (metaLookup res.meta k = some v ↔
        ∀ f ∈ imgs, metaLookup f.meta k = some v)) ∧
    metaLookup res.meta "astropop imcombine nimages" =
      some (.i imgs.length) ∧
    metaLookup res.meta "astropop imcombine method" = some (.s method) := by
  obtain ⟨rfl, hne⟩ := combine_eq_ok imgs cfg method res h
  refine ⟨?_, ?_, ?_⟩
  · intro k v hk1 hk2
    show metaLookup (metaSet
      (metaSet (mergeMeta cfg imgs) "astropop imcombine nimages"
        (.i imgs.length))
      "astropop imcombine method" (.s method)) k = some v ↔ _
    rw [metaLookup_metaSet_other _ _ _ _ hk2,
      metaLookup_metaSet_other _ _ _ _ hk1]
    cases imgs with
    | nil => exact absurd rfl hne
    | cons f0 rest =>
        have hmerge : mergeMeta cfg (f0 :: rest) =
            f0.meta.filter (fun p => (f0 :: rest).all
              (fun g => metaLookup g.meta p.1 = some p.2)) := by
          simp [mergeMeta, hpol]
        rw [hmerge]
        constructor
        · intro hl
          rcases lookup_filter_mem _ _ _ _ hl with ⟨p, hpm, hk, hv, hP⟩
          intro f hf
          have hg := List.all_eq_true.mp hP f hf
          rw [← hk, ← hv]
          exact of_decide_eq_true hg
        · intro hall
          apply lookup_filter_of
          · exact hall f0 (List.mem_cons_self f0 rest)
          · exact List.all_eq_true.mpr
              (fun g hg => decide_eq_true (hall g hg))
  · show metaLookup (metaSet
      (metaSet (mergeMeta cfg imgs) "astropop imcombine nimages"
        (.i imgs.length))
      "astropop imcombine method" (.s method))
      "astropop imcombine nimages" = some (.i imgs.length)
    rw [metaLookup_metaSet_other _ _ _ _ (by decide),
      metaLookup_metaSet_same]
  · exact metaLookup_metaSet_same _ _ _

/-- Witness for C6 on three frames sharing `eq = 1` and differing on `df`:
after an `only_equal` sum-combine, `eq` survives and provenance is set. -/
theorem C6_witness :
    ∃ res, combine
      [⟨1, 1, fun _ _ => .fin 1, none, fun _ _ => false, "adu",
        [("eq", .i 1), ("df", .i 0)]⟩,
       ⟨1, 1, fun _ _ => .fin 1, none, fun _ _ => false, "adu",
        [("eq", .i 1), ("df", .i 1)]⟩,
       ⟨1, 1, fun _ _ => .fin 1, none, fun _ _ => false, "adu",
        [("eq", .i 1), ("df", .i 2)]⟩]
      ⟨1000000000, 8, none, none, none, none, "only_equal", none⟩ "sum" =
      .ok res ∧
      metaLookup res.meta "eq" = some (.i 1) ∧
      metaLookup res.meta "astropop imcombine nimages" = some (.i 3) ∧
      metaLookup res.meta "astropop imcombine method" = some (.s "sum") := by
  have hc := C6_only_equal_merge
    [⟨1, 1, fun _ _ => .fin 1, none, fun _ _ => false, "adu",
      [("eq", .i 1), ("df", .i 0)]⟩,
     ⟨1, 1, fun _ _ => .fin 1, none, fun _ _ => false, "adu",
      [("eq", .i 1), ("df", .i 1)]⟩,
     ⟨1, 1, fun _ _ => .fin 1, none, fun _ _ => false, "adu",
      [("eq", .i 1), ("df", .i 2)]⟩]
    ⟨1000000000, 8, none, none, none, none, "only_equal", none⟩ "sum" _
    rfl rfl
  refine ⟨_, rfl, ?_, ?_, ?_⟩
  · exact (hc.1 "eq" (.i 1) (by decide) (by decide)).mpr (by decide)
  · simpa using hc.2.1
  · exact hc.2.2

end Astropop
